import Mathlib

/-!
Shallow embedding of `cf_bulk_delete_dns.py`, a Cloudflare DNS bulk-deletion
utility, together with proofs about its observable contract.

JSON dictionaries are embedded as structures with `Option`-typed fields
(`none` models an absent key); `dict.get(k, d)` becomes `Option.getD`.
Python truthiness of an optional boolean field is `Option.getD false`,
and truthiness of a string is nonemptiness. The paginated fetch loop,
a `while True` in the source, is embedded with explicit fuel: the outcome
is `none` when the fuel runs out before the loop breaks, and the list of
requested page numbers is returned alongside the outcome. I/O interactions
(HTTP responses, the interactive answer) are passed in as explicit
function and string arguments, and printed lines are returned as data.
-/

/-- One DNS record, as the dict the Cloudflare API returns.
Fields mirror the keys the script reads: `id`, `name`, `type`, `content`
(`type` is spelled `rtype` because `type` is reserved in Lean). -/
structure Record where
  id : Option String
  name : Option String
  rtype : Option String
  content : Option String
deriving DecidableEq

/-- Pagination metadata: the `result_info` dict, of which the script only
reads `total_pages`. -/
structure ResultInfo where
  total_pages : Option Nat
deriving DecidableEq

/-- Envelope of one `list_dns_records` response: `success`, `result`,
`errors` and `result_info`, each possibly absent. -/
structure Payload where
  success : Option Bool
  result : Option (List Record)
  errors : Option (List String)
  result_info : Option ResultInfo
deriving DecidableEq

deriving instance DecidableEq for Except

/-- Envelope of one `delete_dns_record` response. -/
structure DelPayload where
  success : Option Bool
  errors : Option (List String)
deriving DecidableEq

/-- Python truthiness of `payload.get("success")`. -/
def successTruthy (p : Payload) : Bool :=
  p.success.getD false

/-- `payload.get("result_info", \x7b\x7d).get("total_pages", 0)`. -/
def pageTotal (p : Payload) : Nat :=
  ((p.result_info.getD ⟨none⟩).total_pages).getD 0

/-- `payload.get("result", [])`. -/
def pageResult (p : Payload) : List Record :=
  p.result.getD []

/-- Does the character list `hay` start with `needle`? (helper for the
embedding of Python's `in` operator on strings). -/
def charsStartWith : List Char → List Char → Bool
  | _, [] => true
  | [], _ :: _ => false
  | c :: cs, d :: ds => c == d && charsStartWith cs ds

/-- Is `needle` a contiguous run inside `hay`? -/
def charsContain : List Char → List Char → Bool
  | hay, needle =>
    if charsStartWith hay needle then true
    else
      match hay with
      | [] => false
      | _ :: rest => charsContain rest needle

/-- Embedding of Python's `needle in hay` on strings. -/
def strContains (hay needle : String) : Bool :=
  charsContain hay.data needle.data

/-- Embedding of Python's `str.lower` (character-wise lowering; written
over the character list so that it evaluates by kernel reduction). -/
def strLower (s : String) : String :=
  String.mk (s.data.map Char.toLower)

/-- Embedding of Python's `str.strip`: drop whitespace from both ends. -/
def strTrim (s : String) : String :=
  String.mk
    (((s.data.dropWhile Char.isWhitespace).reverse.dropWhile Char.isWhitespace).reverse)

/-- The case-folded name of a record:
`str(record.get("name", "")).lower()`. -/
def foldName (r : Record) : String :=
  strLower (r.name.getD "")

/-- `filter_records` (src/cf_bulk_delete_dns.py:172-189): keeps the records
whose folded name passes the exact-name guard and the substring guard.
The Python set comprehension over `exact_names or []` is embedded as a
lowered list used only through membership; `contains.lower() if contains
else None` maps an absent or empty substring to `none`. -/
def filter_records (records : List Record) (exact_names : Option (List String))
    (contains : Option String) : List Record :=
  let exact_set : List String := (exact_names.getD []).map strLower
  let contains_lower : Option String :=
    match contains with
    | some c => if c = "" then none else some (strLower c)
    | none => none
  records.filter fun r =>
    let name := foldName r
    if !exact_set.isEmpty && !exact_set.contains name then false
    else
      match contains_lower with
      | some cl => strContains name cl
      | none => true

/-- Left-justify to width `n` with spaces, as Python `str.ljust`. -/
def ljust (s : String) (n : Nat) : String :=
  s ++ String.mk (List.replicate (n - s.length) ' ')

/-- One table row of the confirmation preview (`print` joins its arguments
with single spaces). -/
def renderRow (r : Record) : String :=
  ljust (r.id.getD "") 36 ++ " " ++ ljust (r.rtype.getD "") 6 ++ " "
    ++ ljust (r.name.getD "") 40 ++ " " ++ (r.content.getD "")

/-- The column-header row of the preview table. -/
def headerRow : String :=
  ljust "ID" 36 ++ " " ++ ljust "TYPE" 6 ++ " " ++ ljust "NAME" 40 ++ " " ++ "CONTENT"

/-- The dash separator row of the preview table. -/
def sepRow : String :=
  String.mk (List.replicate 110 '-')

/-- `confirm` (src/cf_bulk_delete_dns.py:192-211). Returns the printed
lines together with the boolean result; `answer` is what `input()` would
read when neither the set is empty nor `assume_yes` holds. -/
def confirm (records : List Record) (assume_yes : Bool) (answer : String) :
    List String × Bool :=
  if records.isEmpty then (["No matching records found."], false)
  else
    let preview :=
      "The following records will be deleted:" :: headerRow :: sepRow
        :: records.map renderRow
    if assume_yes then (preview, true)
    else
      let a := strLower (strTrim answer)
      (preview, a == "y" || a == "yes")

/-- The fetch loop of `fetch_dns_records` (src/cf_bulk_delete_dns.py:155-169).
`resp p` is the response envelope the API returns for page `p`; the `while
True` loop is run on explicit fuel. Returns the list of page numbers
requested together with the outcome: `none` when the fuel ran out,
`some (Except.error e)` when a page reported failure (the exception carries
`payload.get("errors")`), `some (Except.ok records)` on normal exit. -/
def fetchAux (resp : Nat → Payload) :
    Nat → Nat → List Record →
      List Nat × Option (Except (Option (List String)) (List Record))
  | 0, _, _ => ([], none)
  | fuel + 1, page, acc =>
    let payload := resp page
    if successTruthy payload = false then
      ([page], some (Except.error payload.errors))
    else
      let acc2 := acc ++ pageResult payload
      if pageTotal payload ≤ page then ([page], some (Except.ok acc2))
      else
        let rest := fetchAux resp fuel (page + 1) acc2
        (page :: rest.1, rest.2)

/-- `fetch_dns_records`: start at page 1 with an empty accumulator. -/
def fetch_dns_records (resp : Nat → Payload) (fuel : Nat) :
    List Nat × Option (Except (Option (List String)) (List Record)) :=
  fetchAux resp fuel 1 []

/-- What `delete_records` prints for one record: a skip notice, a caught
transport error, an API-reported failure, or a success line. Failure and
success lines carry the record's name and identifier as the source
interpolates them. -/
inductive DelEvent where
  | skipped (r : Record)
  | failedTransport (name : String) (rid : String) (msg : String)
  | failedAPI (name : String) (rid : String) (errors : Option (List String))
  | deleted (name : String) (rid : String)
deriving DecidableEq

/-- The body of the `for` loop of `delete_records`
(src/cf_bulk_delete_dns.py:217-235) for the record at position `i`.
`d i` is the outcome of the delete call for that position: a raised
`CloudflareAPIError` message or a response envelope. -/
def delEventFor (d : Nat → Except String DelPayload) (i : Nat) (r : Record) :
    DelEvent :=
  let rid := r.id.getD ""
  let name := r.name.getD "<unknown>"
  if rid = "" then DelEvent.skipped r
  else
    match d i with
    | Except.error msg => DelEvent.failedTransport name rid msg
    | Except.ok payload =>
      if (payload.success.getD false) = false then
        DelEvent.failedAPI name rid payload.errors
      else DelEvent.deleted name rid

/-- The loop of `delete_records`, threading the position index. -/
def deleteGo (d : Nat → Except String DelPayload) (i : Nat) :
    List Record → List DelEvent
  | [] => []
  | r :: rest => delEventFor d i r :: deleteGo d (i + 1) rest

/-- `delete_records` (src/cf_bulk_delete_dns.py:214-235): one event per
record, in order. -/
def delete_records (d : Nat → Except String DelPayload)
    (records : List Record) : List DelEvent :=
  deleteGo d 0 records

/-- The identifier a delete call was issued for, if the event issued one
(every event except a skip corresponds to exactly one delete call). -/
def eventIssuedId : DelEvent → Option String
  | DelEvent.skipped _ => none
  | DelEvent.failedTransport _ rid _ => some rid
  | DelEvent.failedAPI _ rid _ => some rid
  | DelEvent.deleted _ rid => some rid

/-- The record identifiers for which delete calls were issued, in order. -/
def issuedIds (evs : List DelEvent) : List String :=
  evs.filterMap eventIssuedId

/-- Observable outcome of one run of `main` (src/cf_bulk_delete_dns.py:238-269)
after argument parsing: the exit code, the fetch-phase error (if the run
aborted there), the lines `confirm` printed, and the delete-phase events. -/
structure RunResult where
  exitCode : Nat
  fetchError : Option (Option (List String))
  confirmOut : List String
  delEvents : List DelEvent
deriving DecidableEq

/-- `main` after argument parsing, with all I/O passed in: `resp` the list
responses, `d` the delete outcomes, `names` the accumulated `--name` /
names-file values, `contains` the `--contains` value, the dry-run and
auto-yes flags, and the interactive answer. `none` when the fetch loop is
not given enough fuel. Mirrors lines 252-269 of the source: a fetch error
exits 1; dry-run previews with `assume_yes=True` and exits 0; a declined
confirmation exits 0; otherwise the filtered records are deleted. -/
def mainRun (resp : Nat → Payload) (d : Nat → Except String DelPayload)
    (names : List String) (contains : Option String) (dry_run yes : Bool)
    (answer : String) (fuel : Nat) : Option RunResult :=
  match (fetch_dns_records resp fuel).2 with
  | none => none
  | some (Except.error e) => some ⟨1, some e, [], []⟩
  | some (Except.ok records) =>
    let filtered :=
      filter_records records (if names.isEmpty then none else some names) contains
    if dry_run then
      some ⟨0, none, (confirm filtered true answer).1, []⟩
    else
      let c := confirm filtered yes answer
      if c.2 = false then some ⟨0, none, c.1, []⟩
      else some ⟨0, none, c.1, delete_records d filtered⟩

/-- A record used as concrete input in witnesses and counterexamples. -/
def rA : Record := ⟨some "x1", some "a", none, none⟩

/-- A record with identifier "7" and name "b". -/
def rB : Record := ⟨some "7", some "b", none, none⟩

/-- A record with identifier "8" and name "c". -/
def rC : Record := ⟨some "8", some "c", none, none⟩

/-- A record whose `id` field is the empty string. -/
def rEmpty : Record := ⟨some "", some "e", none, none⟩

/-- A delete oracle that always succeeds. -/
def dOk : Nat → Except String DelPayload :=
  fun _ => Except.ok ⟨some true, none⟩

/-- A delete oracle: transport failure at position 0, API-reported failure
afterwards. -/
def dMixed : Nat → Except String DelPayload :=
  fun i => if i = 0 then Except.error "boom" else Except.ok ⟨some false, none⟩

/-- A response sequence whose every page succeeds but carries no
`result_info` (hence a zero total-page count). -/
def respZero : Nat → Payload :=
  fun _ => ⟨some true, some [rA], none, none⟩

/-- A response sequence whose every page succeeds with an absent `result`
field and an explicit `total_pages` of 0. -/
def respNoResult : Nat → Payload :=
  fun _ => ⟨some true, none, none, some ⟨some 0⟩⟩

/-- A response sequence whose every page reports failure. -/
def respFail : Nat → Payload :=
  fun _ => ⟨some false, none, some ["bad token"], none⟩

/-- A single-page response sequence: one record, `total_pages` 1. -/
def respOne : Nat → Payload :=
  fun _ => ⟨some true, some [rA], none, some ⟨some 1⟩⟩

/-- A two-page response sequence with a stable `total_pages` of 2. -/
def respTwo : Nat → Payload :=
  fun p =>
    if p = 1 then ⟨some true, some [rA], none, some ⟨some 2⟩⟩
    else ⟨some true, some [rB], none, some ⟨some 2⟩⟩

theorem charsStartWith_nil (hay : List Char) : charsStartWith hay [] = true := by
  cases hay <;> rfl

theorem charsContain_nil (hay : List Char) : charsContain hay [] = true := by
  unfold charsContain
  rw [charsStartWith_nil]
  rfl

theorem strContains_empty_needle (hay : String) : strContains hay "" = true := by
  unfold strContains
  exact charsContain_nil hay.data

/-- Claim C8: for every value of `assume_yes`, `confirm` on the empty
record set prints the no-matching-records notice and returns `false`. -/
theorem confirm_empty_always_false (assume_yes : Bool) (answer : String) :
    confirm [] assume_yes answer = (["No matching records found."], false) := rfl

/-- Claim C9: a record is kept by `filter_records` under a `contains`
criterion exactly when the folded substring occurs in its folded name, and
the output preserves the input order (it is a sublist of the input). -/
theorem contains_filter_characterization (records : List Record) (S : String) :
    (∀ r : Record,
      r ∈ filter_records records none (some S) ↔
        r ∈ records ∧ strContains (foldName r) (strLower S) = true) ∧
    (filter_records records none (some S)).Sublist records := by
  constructor
  · intro r
    by_cases hS : S = ""
    · subst hS
      simp [filter_records, List.mem_filter, strContains_empty_needle, strLower]
    · simp [filter_records, hS, List.mem_filter]
  · exact List.filter_sublist _

/-- Claim C1, counterexample: with the empty name set, `filter_records`
keeps every record, whereas the claim (quantified over all name sets,
including the empty one) demands that only records whose folded name lies
in the folded name set — i.e. none — be returned. -/
theorem exactNames_empty_set_cex :
    ¬ (filter_records [rA] (some []) none =
        List.filter
          (fun r => (([] : List String).map strLower).contains (foldName r))
          [rA]) := by decide

/-- Claim C1 (amended): for every non-empty name set `N`, `filter_records`
with `exact_names = N` returns exactly the records whose case-folded name
is a member of the case-folded version of `N`, in input order. -/
theorem exactNames_filter_characterization (records : List Record)
    (N : List String) (hN : N ≠ []) :
    filter_records records (some N) none =
      records.filter (fun r => (N.map strLower).contains (foldName r)) := by
  unfold filter_records
  apply List.filter_congr
  intro r _
  have hne : (N.map strLower).isEmpty = false := by
    simp [List.isEmpty_eq_false, hN]
  simp only [Option.getD_some]
  rw [hne]
  cases h : (N.map strLower).contains (foldName r) <;> rfl

/-- Witness for the amended claim C1 at a concrete non-empty name set. -/
theorem exactNames_filter_characterization_witness :
    filter_records [rA] (some ["A"]) none =
      List.filter
        (fun r => ((["A"] : List String).map strLower).contains (foldName r))
        [rA] :=
  exactNames_filter_characterization [rA] ["A"] (by decide)

/-- Claim C2: when a page succeeds but its metadata reports a zero (or
missing, which defaults to zero) total-page count, the fetch loop stops at
that page and returns the records accumulated so far, raising no error. -/
theorem fetch_zero_total_pages_stops (resp : Nat → Payload) (p fuel : Nat)
    (acc : List Record) (hs : successTruthy (resp p) = true)
    (ht : pageTotal (resp p) = 0) :
    fetchAux resp (fuel + 1) p acc =
      ([p], some (Except.ok (acc ++ pageResult (resp p)))) := by
  unfold fetchAux
  simp [hs, ht]

/-- Witness for claim C2: a first page with no `result_info` at all. -/
theorem fetch_zero_total_pages_stops_witness :
    fetchAux respZero 1 1 [] = ([1], some (Except.ok [rA])) := by
  simpa using fetch_zero_total_pages_stops respZero 1 0 [] rfl rfl

/-- Claim C10: a successful page with an absent `result` field contributes
no records and causes no failure; the loop breaks or advances exactly as it
would on an empty result list. -/
theorem fetch_missing_result_is_empty (resp : Nat → Payload) (p fuel : Nat)
    (acc : List Record) (hs : successTruthy (resp p) = true)
    (hr : (resp p).result = none) :
    fetchAux resp (fuel + 1) p acc =
      if pageTotal (resp p) ≤ p then ([p], some (Except.ok acc))
      else (p :: (fetchAux resp fuel (p + 1) acc).1,
            (fetchAux resp fuel (p + 1) acc).2) := by
  conv_lhs => rw [fetchAux]
  simp [hs, pageResult, hr]

/-- Witness for claim C10: a success page with no `result` key yields the
empty record list. -/
theorem fetch_missing_result_is_empty_witness :
    fetchAux respNoResult 1 1 [] = ([1], some (Except.ok [])) := by
  have h := fetch_missing_result_is_empty respNoResult 1 0 [] rfl rfl
  simpa [respNoResult, pageTotal] using h

theorem fetchAux_stable (resp : Nat → Payload) (T : Nat)
    (h : ∀ p, 1 ≤ p → p ≤ T →
      successTruthy (resp p) = true ∧ pageTotal (resp p) = T) :
    ∀ fuel p acc, 1 ≤ p → p ≤ T → T + 1 - p ≤ fuel →
      fetchAux resp fuel p acc =
        (List.range' p (T + 1 - p),
         some (Except.ok (acc ++
           (List.range' p (T + 1 - p)).flatMap fun q => pageResult (resp q)))) := by
  intro fuel
  induction fuel with
  | zero => intro p acc h1 h2 h3; omega
  | succ fuel ih =>
    intro p acc h1 h2 h3
    obtain ⟨hs, ht⟩ := h p h1 h2
    conv_lhs => rw [fetchAux]
    simp only [hs, Bool.true_eq_false, if_false, ht]
    by_cases hpT : T ≤ p
    · have hpe : p = T := le_antisymm h2 hpT
      have h1e : T + 1 - p = 1 := by omega
      rw [if_pos hpT, h1e, List.range'_one]
      simp
    · have h1e : T + 1 - p = (T - p) + 1 := by omega
      have h2e : T + 1 - (p + 1) = T - p := by omega
      have hrec := ih (p + 1) (acc ++ pageResult (resp p))
        (by omega) (by omega) (by omega)
      rw [if_neg hpT, hrec, h2e, h1e, List.range'_succ]
      simp [List.append_assoc]

/-- Claim C5: on a response sequence whose pages all succeed with a stable
total-page count `T ≥ 1`, the fetch issues exactly `T` list calls for pages
1 through `T` in order and returns the concatenation of the pages' result
lists in API return order. -/
theorem fetch_stable_total_pages (resp : Nat → Payload) (T fuel : Nat)
    (hT : 1 ≤ T) (hfuel : T ≤ fuel)
    (h : ∀ p, 1 ≤ p → p ≤ T →
      successTruthy (resp p) = true ∧ pageTotal (resp p) = T) :
    fetch_dns_records resp fuel =
      (List.range' 1 T,
       some (Except.ok ((List.range' 1 T).flatMap fun q => pageResult (resp q)))) := by
  have h1 := fetchAux_stable resp T h fuel 1 [] (by omega) hT (by omega)
  have he : T + 1 - 1 = T := by omega
  rw [he] at h1
  simpa [fetch_dns_records] using h1

/-- Witness for claim C5: two stable pages are fetched as pages [1, 2] and
concatenated in order. -/
theorem fetch_stable_total_pages_witness :
    fetch_dns_records respTwo 2 = ([1, 2], some (Except.ok [rA, rB])) := by
  have h := fetch_stable_total_pages respTwo 2 2 (by omega) (by omega)
    (by intro p h1 h2; interval_cases p <;> exact ⟨rfl, rfl⟩)
  simpa [respTwo, pageResult] using h

theorem deleteGo_length (d : Nat → Except String DelPayload) :
    ∀ (rs : List Record) (i : Nat), (deleteGo d i rs).length = rs.length := by
  intro rs
  induction rs with
  | nil => intro i; rfl
  | cons r rest ih => intro i; simp [deleteGo, ih (i + 1)]

theorem deleteGo_getElem (d : Nat → Except String DelPayload) :
    ∀ (rs : List Record) (i j : Nat),
      (deleteGo d i rs)[j]? = (rs[j]?).map (delEventFor d (i + j)) := by
  intro rs
  induction rs with
  | nil => intro i j; simp [deleteGo]
  | cons r rest ih =>
    intro i j
    cases j with
    | zero => simp [deleteGo]
    | succ j =>
      have he : i + 1 + j = i + (j + 1) := by omega
      simp only [deleteGo, List.getElem?_cons_succ, ih (i + 1) j, he]

theorem mem_deleteGo (d : Nat → Except String DelPayload) :
    ∀ (rs : List Record) (i : Nat) (ev : DelEvent), ev ∈ deleteGo d i rs →
      ∃ k r, ev = delEventFor d k r := by
  intro rs
  induction rs with
  | nil => intro i ev hm; simp [deleteGo] at hm
  | cons r rest ih =>
    intro i ev hm
    rcases List.mem_cons.mp hm with he | hm2
    · exact ⟨i, r, he⟩
    · exact ih (i + 1) ev hm2

theorem eventIssuedId_delEventFor (d : Nat → Except String DelPayload)
    (i : Nat) (r : Record) (s : String)
    (h : eventIssuedId (delEventFor d i r) = some s) : s ≠ "" := by
  by_cases hid : r.id.getD "" = ""
  · simp [delEventFor, hid, eventIssuedId] at h
  · intro hs
    subst hs
    apply hid
    unfold delEventFor at h
    rw [if_neg hid] at h
    rcases hd : d i with msg | payload <;> rw [hd] at h
    · simpa [eventIssuedId] using h
    · by_cases hp : (payload.success.getD false) = false <;>
        simpa [eventIssuedId, hp] using h

/-- Claim C6: `delete_records` processes every record of its input — one
logged event per record, in order, never propagating an exception — and a
failed delete (transport-level or API-reported) is logged with the
record's name and identifier while the batch continues. -/
theorem delete_processes_every_record (d : Nat → Except String DelPayload)
    (records : List Record) :
    (delete_records d records).length = records.length ∧
    (∀ j, (delete_records d records)[j]? =
      (records[j]?).map (delEventFor d j)) ∧
    (∀ i r msg, r.id.getD "" ≠ "" → d i = Except.error msg →
      delEventFor d i r =
        DelEvent.failedTransport (r.name.getD "<unknown>") (r.id.getD "") msg) ∧
    (∀ i r payload, r.id.getD "" ≠ "" → d i = Except.ok payload →
      payload.success.getD false = false →
      delEventFor d i r =
        DelEvent.failedAPI (r.name.getD "<unknown>") (r.id.getD "") payload.errors) := by
  refine ⟨deleteGo_length d records 0, ?_, ?_, ?_⟩
  · intro j
    simpa using deleteGo_getElem d records 0 j
  · intro i r msg hid hd
    simp [delEventFor, hid, hd]
  · intro i r payload hid hd hp
    simp [delEventFor, hid, hd, hp]

/-- Witness for claim C6: a transport failure and an API-reported failure
are both logged with the record's name and identifier. -/
theorem delete_processes_every_record_witness :
    (delete_records dMixed [rB, rC]).length = 2 ∧
    delEventFor dMixed 0 rB = DelEvent.failedTransport "b" "7" "boom" ∧
    delEventFor dMixed 1 rC = DelEvent.failedAPI "c" "8" none := by
  obtain ⟨h1, _, h3, h4⟩ := delete_processes_every_record dMixed [rB, rC]
  refine ⟨h1, ?_, ?_⟩
  · simpa [rB] using h3 0 rB "boom" (by decide) rfl
  · simpa [rC] using h4 1 rC ⟨some false, none⟩ (by decide) rfl rfl

/-- Claim C7: every delete call that `delete_records` issues carries a
non-empty identifier, and a record with an empty (or absent) identifier is
logged as skipped with no delete call issued for it. -/
theorem delete_skips_empty_identifiers (d : Nat → Except String DelPayload)
    (records : List Record) :
    (∀ rid ∈ issuedIds (delete_records d records), rid ≠ "") ∧
    (∀ (j : Nat) (r : Record), records[j]? = some r → r.id.getD "" = "" →
      (delete_records d records)[j]? = some (DelEvent.skipped r)) := by
  constructor
  · intro rid hm
    obtain ⟨ev, hev, hid⟩ := List.mem_filterMap.mp hm
    obtain ⟨k, r, he⟩ := mem_deleteGo d records 0 ev hev
    exact eventIssuedId_delEventFor d k r rid (he ▸ hid)
  · intro j r hj hid
    have h := deleteGo_getElem d records 0 j
    simp only [Nat.zero_add] at h
    unfold delete_records
    rw [h, hj]
    simp [delEventFor, hid]

/-- Witness for claim C7: a record with an empty `id` is skipped; the
issued identifiers of the batch never include the empty string. -/
theorem delete_skips_empty_identifiers_witness :
    ("" ∈ issuedIds (delete_records dOk [rEmpty, rB]) → False) ∧
    (delete_records dOk [rEmpty, rB])[0]? = some (DelEvent.skipped rEmpty) := by
  obtain ⟨h1, h2⟩ := delete_skips_empty_identifiers dOk [rEmpty, rB]
  exact ⟨fun hm => h1 "" hm rfl, h2 0 rEmpty rfl rfl⟩

/-- Claim C3: a page whose envelope reports failure makes the fetch loop
raise immediately with that page's reported error payload (no partial
record list is returned), and whenever the fetch phase errors, the run
exits with code 1 having issued no delete call. -/
theorem fetch_failure_aborts_run (resp : Nat → Payload)
    (d : Nat → Except String DelPayload) (names : List String)
    (contains : Option String) (dry_run yes : Bool) (answer : String) :
    (∀ p fuel acc, successTruthy (resp p) = false →
      fetchAux resp (fuel + 1) p acc =
        ([p], some (Except.error (resp p).errors))) ∧
    (∀ fuel e, (fetch_dns_records resp fuel).2 = some (Except.error e) →
      mainRun resp d names contains dry_run yes answer fuel =
        some ⟨1, some e, [], []⟩) := by
  constructor
  · intro p fuel acc hs
    conv_lhs => rw [fetchAux]
    simp [hs]
  · intro fuel e hf
    unfold mainRun
    rw [hf]

/-- Witness for claim C3: a failing first page carries its error payload
out of the fetch, and the run exits 1 with no deletes. -/
theorem fetch_failure_aborts_run_witness :
    fetchAux respFail 1 1 [] = ([1], some (Except.error (some ["bad token"]))) ∧
    mainRun respFail dOk [] none false false "" 1 = some ⟨1, some (some ["bad token"]), [], []⟩ := by
  obtain ⟨h1, h2⟩ := fetch_failure_aborts_run respFail dOk [] none false false ""
  exact ⟨h1 1 0 [] rfl, h2 1 (some ["bad token"]) rfl⟩

/-- Claim C4: with the dry-run flag set, the run renders the preview of
exactly the filtered records (one row per matching record, after the fixed
header), performs zero delete calls, and exits with code 0. -/
theorem dry_run_previews_without_deleting (resp : Nat → Payload)
    (d : Nat → Except String DelPayload) (names : List String)
    (contains : Option String) (yes : Bool) (answer : String) (fuel : Nat)
    (records : List Record)
    (hf : (fetch_dns_records resp fuel).2 = some (Except.ok records)) :
    mainRun resp d names contains true yes answer fuel =
      some ⟨0, none,
        (confirm (filter_records records
          (if names.isEmpty then none else some names) contains) true answer).1,
        []⟩ ∧
    ∀ rs : List Record, rs ≠ [] →
      (confirm rs true answer).1 =
        "The following records will be deleted:" :: headerRow :: sepRow
          :: rs.map renderRow := by
  constructor
  · unfold mainRun
    rw [hf]
    rfl
  · intro rs hrs
    have hne : rs.isEmpty = false := List.isEmpty_eq_false.mpr hrs
    simp [confirm, hne]

/-- Witness for claim C4: a one-page zone in dry-run mode previews the
single matching record and issues no delete. -/
theorem dry_run_previews_without_deleting_witness :
    mainRun respOne dOk [] none true false "" 1 =
      some ⟨0, none, (confirm [rA] true "").1, []⟩ ∧
    (confirm [rA] true "").1 =
      "The following records will be deleted:" :: headerRow :: sepRow
        :: [rA].map renderRow := by
  obtain ⟨h1, h2⟩ :=
    dry_run_previews_without_deleting respOne dOk [] none false "" 1 [rA] rfl
  exact ⟨h1, h2 [rA] (by decide)⟩
